import Mathlib

/-!
# ATC Transcript Analyzer — verification of the analysis pipeline

Shallow embedding of the ATC transcript analyzer (fatigue-demo).  The core
pipeline lives in `src/unnamed/part_000` (Python: `FatigueAgent`,
`SafetyAgent`, `SummarizerAgent`, `analyze_shift`, `process_shift`); the
upload form lives in `src/frontend/src/pages/ShiftSelection.tsx`
(`UploadAudio`).  Timestamps and durations are embedded as rationals,
Python lists as Lean lists, dicts with fixed key sets as structures, and
fallible Python code (exceptions) as `Except`/`Option` values.
-/

namespace ATC

/-- Speaker tag of a transcript entry (`'controller'` or `'pilot'` in the
Python transcript rows). -/
inductive Speaker where
  | controller
  | pilot
deriving DecidableEq, Repr

/-- One transcript entry: `{timestamp, speaker, text}` as produced by
transcription and consumed by the agents.  Timestamps are rationals standing
for the float seconds of the source. -/
structure TEntry where
  timestamp : ℚ
  speaker : Speaker
  text : String
deriving DecidableEq, Repr

/-! ## Transcript Metrics Calculator (`FatigueAgent._calculate_response_times`,
`FatigueAgent._count_hesitations`) -/

/-- The `times` list built by `_calculate_response_times`: for each index
`i` with `transcript[i].speaker == 'pilot'` and
`transcript[i+1].speaker == 'controller'`, the delta
`transcript[i+1].timestamp - transcript[i].timestamp`, in order. -/
def responseDeltas : List TEntry → List ℚ
  | a :: b :: rest =>
      (if a.speaker = Speaker.pilot ∧ b.speaker = Speaker.controller
       then [b.timestamp - a.timestamp] else []) ++ responseDeltas (b :: rest)
  | _ => []

/-- Python `max(l)` for a nonempty list, `0` for the empty one (the code
guards with `if times else 0`). -/
def pyMax : List ℚ → ℚ
  | [] => 0
  | [x] => x
  | x :: y :: rest => max x (pyMax (y :: rest))

/-- Python `min(l)` for a nonempty list, `0` for the empty one. -/
def pyMin : List ℚ → ℚ
  | [] => 0
  | [x] => x
  | x :: y :: rest => min x (pyMin (y :: rest))

/-- `FatigueAgent._calculate_response_times`: returns the dict
`{'avg': sum/len if times else 0, 'max': max(times) if times else 0,
'min': min(times) if times else 0}` as an (avg, max, min) triple. -/
def calculate_response_times (transcript : List TEntry) : ℚ × ℚ × ℚ :=
  let times := responseDeltas transcript
  ( if times = [] then 0 else times.sum / times.length
  , if times = [] then 0 else pyMax times
  , if times = [] then 0 else pyMin times )

/-- Spec-side description of the latency pairs: "for every adjacent pair
where entry[i].speaker = pilot and entry[i+1].speaker = controller,
latency = entry[i+1].timestamp − entry[i].timestamp". -/
def specLatencyPairs (t : List TEntry) : List ℚ :=
  (t.zip t.tail).filterMap fun p =>
    if p.1.speaker = Speaker.pilot ∧ p.2.speaker = Speaker.controller
    then some (p.2.timestamp - p.1.timestamp) else none

lemma responseDeltas_eq_spec (t : List TEntry) :
    responseDeltas t = specLatencyPairs t := by
  induction t with
  | nil => rfl
  | cons a t ih =>
    cases t with
    | nil => rfl
    | cons b rest =>
      simp only [responseDeltas, specLatencyPairs, List.tail_cons, List.zip_cons_cons,
        List.filterMap_cons] at ih ⊢
      by_cases h : a.speaker = Speaker.pilot ∧ b.speaker = Speaker.controller
      · simp [h, ih]
      · simp [h, ih]

lemma pyMax_mem : ∀ l : List ℚ, l ≠ [] → pyMax l ∈ l
  | [], h => absurd rfl h
  | [x], _ => by simp [pyMax]
  | x :: y :: rest, _ => by
      rcases le_total x (pyMax (y :: rest)) with h | h
      · have := pyMax_mem (y :: rest) (by simp)
        simp [pyMax, max_eq_right h, this]
      · simp [pyMax, max_eq_left h]

lemma le_pyMax : ∀ l : List ℚ, ∀ x ∈ l, x ≤ pyMax l
  | [x], y, hy => by simp_all [pyMax]
  | x :: y :: rest, z, hz => by
      rcases List.mem_cons.mp hz with h | h
      · simp [pyMax, h, le_max_iff]
      · have := le_pyMax (y :: rest) z h
        simp only [pyMax]
        exact le_max_of_le_right this

lemma pyMin_mem : ∀ l : List ℚ, l ≠ [] → pyMin l ∈ l
  | [], h => absurd rfl h
  | [x], _ => by simp [pyMin]
  | x :: y :: rest, _ => by
      rcases le_total (pyMin (y :: rest)) x with h | h
      · have := pyMin_mem (y :: rest) (by simp)
        simp [pyMin, min_eq_right h, this]
      · simp [pyMin, min_eq_left h]

lemma pyMin_le : ∀ l : List ℚ, ∀ x ∈ l, pyMin l ≤ x
  | [x], y, hy => by simp_all [pyMin]
  | x :: y :: rest, z, hz => by
      rcases List.mem_cons.mp hz with h | h
      · simp [pyMin, h, min_le_iff]
      · have := pyMin_le (y :: rest) z h
        simp only [pyMin]
        exact min_le_of_right_le this

/-- The scanner behind Python `str.count` for a nonempty pattern `p`:
non-overlapping occurrences, scanning left to right; `skip` counts characters
still to be consumed by the preceding match before matching resumes. -/
def countFrom (p : List Char) : List Char → Nat → Nat
  | [], _ => 0
  | _ :: s, Nat.succ skip => countFrom p s skip
  | c :: s, 0 =>
      if p.isPrefixOf (c :: s) then 1 + countFrom p s (p.length - 1)
      else countFrom p s 0

/-- Python `text.count(p)` (non-overlapping substring occurrences, as used
with the nonempty filler tokens). -/
def pyCount (p s : List Char) : Nat := countFrom p s 0

/-- The fixed filler set of `_count_hesitations`:
`['uh', 'um', 'er', 'ah', '...']`. -/
def fillers : List (List Char) :=
  [['u', 'h'], ['u', 'm'], ['e', 'r'], ['a', 'h'], ['.', '.', '.']]

/-- `item['text'].lower()` as a character list (the fillers are ASCII, and
`Char.toLower` agrees with Python `str.lower` on ASCII). -/
def lowerChars (s : String) : List Char := s.data.map Char.toLower

/-- Contribution of one utterance:
`sum(text.count(filler) for filler in fillers)` on the lowercased text. -/
def hesitationsIn (text : String) : Nat :=
  (fillers.map fun f => pyCount f (lowerChars text)).sum

/-- `FatigueAgent._count_hesitations`: the running `count` accumulated over
the transcript, adding each controller utterance's filler occurrences. -/
def count_hesitations (t : List TEntry) : Nat :=
  t.foldl (fun count e =>
    if e.speaker = Speaker.controller then count + hesitationsIn e.text
    else count) 0

lemma countFrom_eq_zero_of_short (p : List Char) :
    ∀ (s : List Char) (k : Nat), s.length < p.length → countFrom p s k = 0
  | [], _, _ => rfl
  | _ :: s, Nat.succ skip, h => by
      simp only [countFrom]
      exact countFrom_eq_zero_of_short p s skip (by simp at h ⊢; omega)
  | c :: s, 0, h => by
      have hnp : ¬ p.isPrefixOf (c :: s) := fun hp => by
        have := (List.isPrefixOf_iff_prefix.mp hp).length_le
        simp at this h; omega
      simp only [countFrom, if_neg hnp]
      exact countFrom_eq_zero_of_short p s 0 (by simp at h ⊢; omega)

lemma countFrom_le_append (p u : List Char) :
    ∀ (s : List Char) (k : Nat), countFrom p s k ≤ countFrom p (s ++ u) k := by
  intro s
  induction s with
  | nil => intro k; simp [countFrom]
  | cons c s' ih =>
    intro k
    cases k with
    | succ skip => simpa only [List.cons_append, countFrom] using ih skip
    | zero =>
      by_cases hpre : p.isPrefixOf (c :: s')
      · have hpre2 : p.isPrefixOf (c :: (s' ++ u)) := by
          rw [List.isPrefixOf_iff_prefix] at hpre ⊢
          exact hpre.trans ⟨u, by simp⟩
        simp only [List.cons_append, countFrom, List.append_eq, if_pos hpre, if_pos hpre2]
        exact Nat.add_le_add_left (ih _) 1
      · by_cases hpre2 : p.isPrefixOf (c :: (s' ++ u))
        · have hlen : s'.length + 1 < p.length := by
            by_contra hle
            apply hpre
            rw [List.isPrefixOf_iff_prefix, List.prefix_iff_eq_take]
            have h1 := List.prefix_iff_eq_take.mp (List.isPrefixOf_iff_prefix.mp hpre2)
            rwa [show c :: (s' ++ u) = (c :: s') ++ u from rfl,
              List.take_append_of_le_length (by simp; omega)] at h1
          simp only [List.cons_append, countFrom, List.append_eq, if_neg hpre, if_pos hpre2]
          rw [countFrom_eq_zero_of_short p s' 0 (by omega)]
          exact Nat.zero_le _
        · simp only [List.cons_append, countFrom, List.append_eq, if_neg hpre, if_neg hpre2]
          exact ih 0

lemma hesitationsIn_le_append (s u : String) :
    hesitationsIn s ≤ hesitationsIn (s ++ u) := by
  unfold hesitationsIn
  refine List.sum_le_sum fun f _ => ?_
  unfold pyCount
  have h : lowerChars (s ++ u) = lowerChars s ++ lowerChars u := by
    simp [lowerChars, String.data_append]
  rw [h]
  exact countFrom_le_append f (lowerChars u) (lowerChars s) 0

lemma count_hesitations_foldl (t : List TEntry) : ∀ n : Nat,
    t.foldl (fun count e =>
      if e.speaker = Speaker.controller then count + hesitationsIn e.text
      else count) n
    = n + ((t.filter fun e => e.speaker = Speaker.controller).map fun e =>
        hesitationsIn e.text).sum := by
  induction t with
  | nil => simp
  | cons a t ih =>
    intro n
    by_cases h : a.speaker = Speaker.controller
    · simp only [List.foldl_cons, if_pos h, ih, List.filter_cons, h]
      simp; omega
    · simp only [List.foldl_cons, if_neg h, ih, List.filter_cons]
      simp [h]

lemma count_hesitations_eq_sum (t : List TEntry) :
    count_hesitations t =
      ((t.filter fun e => e.speaker = Speaker.controller).map fun e =>
        hesitationsIn e.text).sum := by
  simpa using count_hesitations_foldl t 0

/-- Entry-wise relation: same speakers, and every controller utterance of the
right transcript extends the matching left utterance by an appended suffix
(e.g. an added filler token); pilot utterances may change arbitrarily. -/
def ExtendsControllerText (a b : TEntry) : Prop :=
  a.speaker = b.speaker ∧
    (a.speaker = Speaker.controller → ∃ u, b.text = a.text ++ u)

/-- Entry-wise relation: same speakers and identical controller utterances;
pilot utterances may change arbitrarily. -/
def SameControllerText (a b : TEntry) : Prop :=
  a.speaker = b.speaker ∧ (a.speaker = Speaker.controller → a.text = b.text)

lemma count_hesitations_mono {t t' : List TEntry}
    (h : List.Forall₂ ExtendsControllerText t t') :
    count_hesitations t ≤ count_hesitations t' := by
  rw [count_hesitations_eq_sum, count_hesitations_eq_sum]
  induction h with
  | nil => exact le_refl _
  | @cons a b l₁ l₂ hab hrest ih =>
    obtain ⟨hsp, htext⟩ := hab
    by_cases hc : a.speaker = Speaker.controller
    · obtain ⟨u, hu⟩ := htext hc
      have hcb : b.speaker = Speaker.controller := hsp ▸ hc
      simp only [List.filter_cons, hc, hcb, List.map_cons, List.sum_cons,
        decide_eq_true_eq, if_pos]
      refine Nat.add_le_add ?_ ih
      rw [hu]
      exact hesitationsIn_le_append a.text u
    · have hcb : ¬ b.speaker = Speaker.controller := fun h2 => hc (hsp ▸ h2)
      simp only [List.filter_cons, hc, hcb, decide_eq_true_eq, if_neg,
        not_false_iff]
      exact ih

lemma count_hesitations_congr {t t' : List TEntry}
    (h : List.Forall₂ SameControllerText t t') :
    count_hesitations t = count_hesitations t' := by
  rw [count_hesitations_eq_sum, count_hesitations_eq_sum]
  induction h with
  | nil => rfl
  | @cons a b l₁ l₂ hab hrest ih =>
    obtain ⟨hsp, htext⟩ := hab
    by_cases hc : a.speaker = Speaker.controller
    · have hcb : b.speaker = Speaker.controller := hsp ▸ hc
      simp only [List.filter_cons, hc, hcb, List.map_cons, List.sum_cons,
        decide_eq_true_eq, if_pos, htext hc, ih]
    · have hcb : ¬ b.speaker = Speaker.controller := fun h2 => hc (hsp ▸ h2)
      simp only [List.filter_cons, hc, hcb, decide_eq_true_eq, if_neg,
        not_false_iff]
      exact ih

/-! ## Shift metadata and the Fatigue agent invoker (`FatigueAgent.analyze`,
`FatigueAgent._format_samples`) -/

/-- The shift metadata dict consumed by the agents (see the metadata JSON
format in §4.1 of the design document).  Start/end times are rationals
standing for instants on a common time axis, in hours. -/
structure ShiftMetadata where
  shift_id : String
  controller_id : String
  facility : String
  start_time : ℚ
  end_time : ℚ
  position : String
  schedule_type : String
deriving DecidableEq, Repr

/-- Modelled from the spec: `FatigueAgent._get_hours_on_duty` is called at
line 193 of the design document but not defined in the repository's files;
spec §3 fixes `hoursOnDuty = endTime - startTime`. -/
def get_hours_on_duty (md : ShiftMetadata) : ℚ :=
  md.end_time - md.start_time

/-- Faults Python raises during prompt construction:
`transcript[::0]` raises `ValueError: slice step cannot be zero`. -/
inductive PyFault where
  | sliceStepZero
deriving DecidableEq, Repr

/-- Python extended slice `l[::k]` for `k ≥ 1`: the elements whose index is
a multiple of `k`, in order. -/
def everyNth (k : Nat) (l : List α) : List α :=
  (l.enum.filter fun p => p.1 % k = 0).map Prod.snd

/-- `s['speaker'].upper()`. -/
def speakerUpper : Speaker → String
  | .controller => "CONTROLLER"
  | .pilot => "PILOT"

/-- One line of the SAMPLE TRANSMISSIONS prompt block. -/
def formatSample (s : TEntry) : String :=
  "[" ++ toString s.timestamp ++ "] " ++ speakerUpper s.speaker ++ ": " ++ s.text

/-- `FatigueAgent._format_samples` (lines 274-286):
`interval = len(transcript) // num_samples;
samples = transcript[::interval][:num_samples]`.  The slice raises
`ValueError` when `interval = 0`, i.e. when the transcript has fewer than
`num_samples` entries; the fault is the `.error` case. -/
def format_samples (transcript : List TEntry) (num_samples : Nat := 10) :
    Except PyFault (List String) :=
  let interval := transcript.length / num_samples
  if interval = 0 then .error .sliceStepZero
  else .ok (((everyNth interval transcript).take num_samples).map formatSample)

/-- Failures a single agent invocation can surface to `process_shift`. -/
inductive AgentErr where
  | backendTimeout
  | extractionFailure (raw : String)
  | promptFault (f : PyFault)
deriving DecidableEq, Repr

/-- The validated fatigue result: the payload the model emitted (abstract,
of type `α`) together with the `result['metrics']` dict attached by the
invoker, as an association list of metric keys to values. -/
structure FatigueResult (α : Type) where
  payload : α
  metrics : List (String × ℚ)
deriving DecidableEq, Repr

/-- The `result['metrics']` dict written at lines 238-243: exactly the keys
`avg_response_time`, `max_response_time`, `hesitation_count`,
`hours_on_duty`, computed by the Metrics Calculator from the transcript and
metadata alone. -/
def attachedMetrics (transcript : List TEntry) (md : ShiftMetadata) :
    List (String × ℚ) :=
  [ ("avg_response_time", (calculate_response_times transcript).1)
  , ("max_response_time", (calculate_response_times transcript).2.1)
  , ("hesitation_count", (count_hesitations transcript : ℚ))
  , ("hours_on_duty", get_hours_on_duty md) ]

/-- `FatigueAgent.analyze` (lines 187-245): compute the metrics, build the
prompt (evaluating `_format_samples`, whose fault propagates before any
backend call), make one `messages.create` call, extract the JSON payload
(`_extract_json` is abstracted by `extract`; a raised extraction error
propagates), and attach the computed metrics.  `backend n` is the reply of
the `n`-th backend call of this invocation; the returned `Nat` counts the
backend calls actually made — the code performs no retry. -/
def FatigueAgent.analyze {α : Type} (backend : Nat → Except Unit String)
    (extract : String → Option α) (transcript : List TEntry)
    (md : ShiftMetadata) : Except AgentErr (FatigueResult α) × Nat :=
  match format_samples transcript with
  | .error f => (.error (.promptFault f), 0)
  | .ok _ =>
    match backend 0 with
    | .error _ => (.error .backendTimeout, 1)
    | .ok raw =>
      match extract raw with
      | none => (.error (.extractionFailure raw), 1)
      | some payload => (.ok ⟨payload, attachedMetrics transcript md⟩, 1)

/-! ## Pipeline orchestration (`analyze_shift` endpoint of main.py,
`process_shift`, and the `asyncio.gather` variant of §4.2) -/

/-- External collaborators of one pipeline run, each fallible
(`Except String` carries the exception text `str(e)`); the three agent
result types are abstract. -/
structure PipelineEnv (F S U : Type) where
  download_from_s3 : String → Except String String
  get_shift_metadata : String → Except String ShiftMetadata
  transcribe : String → Except String (List TEntry)
  fatigue : List TEntry → ShiftMetadata → Except String F
  safety : List TEntry → ShiftMetadata → Except String S
  summarizer : List TEntry → ShiftMetadata → F → S → Except String U

/-- The record `save_to_database` writes: shift id plus all three agent
results (the dict at lines 616-621). -/
structure Report (F S U : Type) where
  shift_id : String
  fatigue : F
  safety : S
  summary : U

/-- The report database keyed by shift id (read by `GET /report/{shift_id}`). -/
def Store (F S U : Type) : Type := String → Option (Report F S U)

/-- Terminal outcome of one `process_shift` run: the returned
`{"status": "complete"}` or `{"status": "failed", "error": str(e)}`. -/
inductive RunOutcome where
  | complete
  | failed (error : String)
deriving DecidableEq, Repr

/-- Observable agent events of one run, in program order. -/
inductive Ev (F S : Type) where
  | invokeFatigue
  | fatigueOk (f : F)
  | invokeSafety
  | safetyOk (s : S)
  | invokeSummarizer (f : F) (s : S)
  | summaryOk
deriving DecidableEq

/-- `process_shift` (main.py lines 598-630): the body of the `try` block in
sequence — download, metadata, transcribe, then the three agents awaited one
after the other, then `save_to_database` — with any raised exception caught
by the `except` clause, which returns `failed` without touching the store.
`upload_report_to_s3` (external, after the database write) is not modelled.
Returns (outcome, store after the run, agent event trace). -/
def process_shift {F S U : Type} (env : PipelineEnv F S U) (db : Store F S U)
    (shift_id : String) : RunOutcome × Store F S U × List (Ev F S) :=
  match env.download_from_s3 shift_id with
  | .error e => (.failed e, db, [])
  | .ok audio =>
  match env.get_shift_metadata shift_id with
  | .error e => (.failed e, db, [])
  | .ok md =>
  match env.transcribe audio with
  | .error e => (.failed e, db, [])
  | .ok t =>
  match env.fatigue t md with
  | .error e => (.failed e, db, [.invokeFatigue])
  | .ok f =>
  match env.safety t md with
  | .error e => (.failed e, db, [.invokeFatigue, .fatigueOk f, .invokeSafety])
  | .ok s =>
  match env.summarizer t md f s with
  | .error e => (.failed e, db,
      [.invokeFatigue, .fatigueOk f, .invokeSafety, .safetyOk s,
       .invokeSummarizer f s])
  | .ok u =>
      (.complete, Function.update db shift_id (some ⟨shift_id, f, s, u⟩),
       [.invokeFatigue, .fatigueOk f, .invokeSafety, .safetyOk s,
        .invokeSummarizer f s, .summaryOk])

/-- Python runtime faults of the §4.2 `analyze_shift` sketch. -/
inductive PyError where
  | nameError (name : String)
  | runtime (msg : String)
deriving DecidableEq, Repr

/-- `analyze_shift` of §4.2 (design document lines 136-169): after the S3
download, metadata fetch and transcription, the `asyncio.gather(...)` call
evaluates its argument list, and the third argument names `fatigue_result`
and `safety_result` — unbound in that scope — so Python raises `NameError`
before any agent coroutine is awaited.  No agent event ever occurs. -/
def analyze_shift_gather {F S U : Type} (env : PipelineEnv F S U)
    (shift_id : String) : Except PyError (Report F S U) × List (Ev F S) :=
  match env.download_from_s3 shift_id with
  | .error e => (.error (.runtime e), [])
  | .ok audio =>
  match env.get_shift_metadata shift_id with
  | .error e => (.error (.runtime e), [])
  | .ok _ =>
  match env.transcribe audio with
  | .error e => (.error (.runtime e), [])
  | .ok _ => (.error (.nameError "fatigue_result"), [])

/-- Server state of the FastAPI app: background tasks queued by
`BackgroundTasks.add_task` (not yet started) and the shift ids whose
`process_shift` task is currently executing (one list entry per in-flight
task). -/
structure ServerState where
  queued : List String
  running : List String
deriving DecidableEq, Repr

/-- The JSON body `POST /analyze-shift` returns. -/
structure StartResponse where
  status : String
  shift_id : String
deriving DecidableEq, Repr

/-- The `analyze_shift` endpoint (main.py lines 592-596):
`background_tasks.add_task(process_shift, shift_id)` followed by
`return {"status": "processing", "shift_id": shift_id}` — it consults no
run state and has no other branch. -/
def analyze_shift (shift_id : String) (st : ServerState) :
    StartResponse × ServerState :=
  (⟨"processing", shift_id⟩, ⟨st.queued ++ [shift_id], st.running⟩)

/-- Interleaving of requests and the background-task executor: a request
step runs the endpoint; the executor may begin a queued task (moving its
shift id into `running`) or finish a running one. -/
inductive SrvStep : ServerState → ServerState → Prop where
  | request (id : String) (st : ServerState) :
      SrvStep st (analyze_shift id st).2
  | begin_task (id : String) (rest : List String) (st : ServerState) :
      st.queued = id :: rest → SrvStep st ⟨rest, st.running ++ [id]⟩
  | finish_task (id : String) (st : ServerState) :
      id ∈ st.running → SrvStep st ⟨st.queued, st.running.erase id⟩

/-! ## Upload form (`UploadAudio` in ShiftSelection.tsx) -/

/-- An audio file as `handleAudioChange` observes it: the browser-reported
MIME type and the duration `getAudioDuration` measures in seconds (0 when
the file cannot be decoded). -/
structure AudioFile where
  type : String
  duration : ℚ
deriving DecidableEq, Repr

/-- `validTypes` (line 248). -/
def validTypes : List String :=
  ["audio/mpeg", "audio/wav", "audio/mp4", "audio/ogg", "audio/flac"]

/-- `maxDurationSeconds = 30 * 60` (line 258). -/
def maxDurationSeconds : ℚ := 30 * 60

/-- The component state `handleAudioChange` touches: the selected file and
the error record (an association list keyed by field name). -/
structure UploadState where
  audioFile : Option AudioFile
  errors : List (String × String)
deriving DecidableEq, Repr

/-- `UploadAudio.handleAudioChange` (lines 241-273): an invalid MIME type or
a measured duration above 30 minutes replaces the error record with an
`audioFile` error and clears the selection; otherwise the file is kept and
any previous `audioFile` error is deleted.  (The dynamic minutes figure
interpolated into the too-long message is elided.) -/
def handleAudioChange (file : AudioFile) (st : UploadState) : UploadState :=
  if file.type ∉ validTypes then
    ⟨none, [("audioFile", "Invalid audio format. Please upload MP3, WAV, M4A, OGG, or FLAC.")]⟩
  else if maxDurationSeconds < file.duration then
    ⟨none, [("audioFile", "Audio file is too long. Maximum duration is 30 minutes.")]⟩
  else
    ⟨some file, st.errors.filter fun kv => kv.1 ≠ "audioFile"⟩

/-- The metadata form fields.  The `datetime-local` inputs are strings in
the source; here a parsed instant: `none` is the empty string (falsy in the
`if (!formData.startTime)` checks) and `some x` a filled value whose
`new Date(...).getTime()` is `x`. -/
structure UploadFormData where
  shiftId : String
  controllerId : String
  facility : String
  startTime : Option ℚ
  endTime : Option ℚ
  position : String
  scheduleType : String
  trafficCountAvg : ℚ
deriving DecidableEq, Repr

/-- `UploadAudio.validateForm` (lines 296-345): the `newErrors` record built
field by field, in source order; the form passes validation iff the record
stays empty.  (The required check and the after-start check on `endTime`
are mutually exclusive, so the association list has at most one entry per
key, as the JS object does.) -/
def validateForm (audioFile : Option AudioFile) (f : UploadFormData) :
    List (String × String) :=
  (if audioFile = none then [("audioFile", "Please select an audio file")] else [])
  ++ (if f.shiftId.trim = "" then [("shiftId", "Shift ID is required")] else [])
  ++ (if f.controllerId.trim = "" then [("controllerId", "Controller ID is required")] else [])
  ++ (if f.facility.trim = "" then [("facility", "Facility is required")] else [])
  ++ (if f.startTime = none then [("startTime", "Start time is required")] else [])
  ++ (if f.endTime = none then [("endTime", "End time is required")] else [])
  ++ (match f.startTime, f.endTime with
      | some s, some e =>
          if e ≤ s then [("endTime", "End time must be after start time")] else []
      | _, _ => [])
  ++ (if f.position.trim = "" then [("position", "Position is required")] else [])
  ++ (if f.scheduleType.trim = "" then [("scheduleType", "Schedule type is required")] else [])
  ++ (if f.trafficCountAvg < 0 then [("trafficCountAvg", "Traffic count must be non-negative")] else [])

/-! ## Concrete instances for the counterexample and witness theorems -/

/-- A backend whose first reply is unparseable while its second would parse:
exhibits that the code never makes the second call. -/
def exBackend : Nat → Except Unit String :=
  fun n => if n = 0 then .ok "garbage" else .ok "ok"

/-- An extractor accepting exactly the reply `"ok"`. -/
def exExtract : String → Option Unit :=
  fun s => if s = "ok" then some () else none

/-- A backend that always answers. -/
def okBackend : Nat → Except Unit String := fun _ => .ok "reply"

/-- An extractor that always succeeds. -/
def okExtract : String → Option Unit := fun _ => some ()

/-- A ten-entry transcript (prompt construction succeeds on it). -/
def exTranscript : List TEntry := List.replicate 10 ⟨0, .pilot, ""⟩

/-- Metadata of a concrete eight-hour tower shift. -/
def exMetadata : ShiftMetadata :=
  ⟨"shift_1", "CTR_123", "facility_001", 6, 14, "tower", "2-2-1"⟩

/-- A three-entry transcript (fewer than the sample size of 10). -/
def shortTranscript : List TEntry :=
  [⟨0, .pilot, "a"⟩, ⟨1, .controller, "b"⟩, ⟨2, .pilot, "c"⟩]

/-- The metric keys an agent invocation returns (empty on failure). -/
def metricKeys {α : Type} : Except AgentErr (FatigueResult α) → List String
  | .ok r => r.metrics.map Prod.fst
  | .error _ => []

lemma format_samples_ok_iff (t : List TEntry) :
    (∃ l, format_samples t = .ok l) ↔ 10 ≤ t.length := by
  unfold format_samples
  by_cases h : t.length / 10 = 0
  · simp only [h, if_pos]
    constructor
    · rintro ⟨l, hl⟩; cases hl
    · intro hlen
      exact absurd ((Nat.div_eq_zero_iff (by norm_num)).mp h) (not_lt.mpr hlen)
  · simp only [h, if_neg, not_false_iff]
    constructor
    · intro _
      by_contra hlen
      exact h ((Nat.div_eq_zero_iff (by norm_num)).mpr (not_le.mp hlen))
    · intro _
      exact ⟨_, rfl⟩

end ATC

namespace ATC

/-- C4: the response-latency metrics are computed over exactly the adjacent
pilot→controller pairs, aggregated as average / maximum / minimum; with no
such pair all three are 0; and on the transcript with entries at t=0 (pilot),
t=2 (controller), t=10 (pilot), t=15.2 (controller) the result is
avg = 3.6, max = 5.2, min = 2.0. -/
theorem response_latency_spec :
    (∀ t : List TEntry, calculate_response_times t =
      ( if specLatencyPairs t = [] then 0
        else (specLatencyPairs t).sum / ((specLatencyPairs t).length : ℚ)
      , pyMax (specLatencyPairs t)
      , pyMin (specLatencyPairs t) ))
    ∧ (∀ t : List TEntry, ∀ x ∈ specLatencyPairs t,
        x ≤ pyMax (specLatencyPairs t) ∧ pyMin (specLatencyPairs t) ≤ x)
    ∧ (∀ t : List TEntry, specLatencyPairs t ≠ [] →
        pyMax (specLatencyPairs t) ∈ specLatencyPairs t ∧
        pyMin (specLatencyPairs t) ∈ specLatencyPairs t)
    ∧ (∀ t : List TEntry, specLatencyPairs t = [] →
        calculate_response_times t = (0, 0, 0))
    ∧ calculate_response_times
        [⟨0, .pilot, ""⟩, ⟨2, .controller, ""⟩, ⟨10, .pilot, ""⟩, ⟨15.2, .controller, ""⟩]
        = (3.6, 5.2, 2.0) := by
  refine ⟨?_, ?_, ?_, ?_, ?_⟩
  · intro t
    unfold calculate_response_times
    rw [responseDeltas_eq_spec]
    rcases eq_or_ne (specLatencyPairs t) [] with h | h
    · simp [h, pyMax, pyMin]
    · simp [h]
  · exact fun t x hx => ⟨le_pyMax _ x hx, pyMin_le _ x hx⟩
  · exact fun t h => ⟨pyMax_mem _ h, pyMin_mem _ h⟩
  · intro t h
    unfold calculate_response_times
    rw [responseDeltas_eq_spec, h]
    simp
  · simp [calculate_response_times, responseDeltas, pyMax, pyMin]
    norm_num

/-- C5: the hesitation count is the sum, over controller utterances only, of
the (non-deduplicated, case-insensitive) occurrences of the fixed filler set
`{uh, um, er, ah, ...}`; it does not decrease when text (e.g. a filler token)
is appended to controller utterances, and it is unchanged by any modification
of pilot utterances.  The concrete transcript shows case-insensitive
counting of repeated tokens and insensitivity to pilot fillers. -/
theorem hesitation_count_spec :
    (∀ t : List TEntry, count_hesitations t =
      ((t.filter fun e => e.speaker = Speaker.controller).map fun e =>
        (fillers.map fun f => pyCount f (lowerChars e.text)).sum).sum)
    ∧ (∀ t t' : List TEntry, List.Forall₂ ExtendsControllerText t t' →
        count_hesitations t ≤ count_hesitations t')
    ∧ (∀ t t' : List TEntry, List.Forall₂ SameControllerText t t' →
        count_hesitations t = count_hesitations t')
    ∧ count_hesitations
        [⟨0, .controller, "Uh... um UH"⟩, ⟨1, .pilot, "uh um er"⟩] = 4 := by
  refine ⟨?_, ?_, ?_, by decide⟩
  · intro t
    simpa [hesitationsIn] using count_hesitations_eq_sum t
  · exact fun t t' h => count_hesitations_mono h
  · exact fun t t' h => count_hesitations_congr h

/-- C1 counterexample: with a run for `shift_1` already executing, the
endpoint still answers `processing` (never `rejected`), and from the empty
server state a four-step interleaving — request, task start, second request,
second task start — reaches a state with two simultaneously running
`process_shift` tasks for the same shift id. -/
theorem start_analysis_guard_counterexample :
    (analyze_shift "shift_1" ⟨[], ["shift_1"]⟩).1.status = "processing"
    ∧ (analyze_shift "shift_1" ⟨[], ["shift_1"]⟩).1.status ≠ "rejected"
    ∧ Relation.ReflTransGen SrvStep ⟨[], []⟩ ⟨[], ["shift_1", "shift_1"]⟩ := by
  refine ⟨rfl, by decide, ?_⟩
  have h1 : SrvStep ⟨[], []⟩ ⟨["shift_1"], []⟩ :=
    SrvStep.request "shift_1" ⟨[], []⟩
  have h2 : SrvStep ⟨["shift_1"], []⟩ ⟨[], ["shift_1"]⟩ :=
    SrvStep.begin_task "shift_1" [] ⟨["shift_1"], []⟩ rfl
  have h3 : SrvStep ⟨[], ["shift_1"]⟩ ⟨["shift_1"], ["shift_1"]⟩ :=
    SrvStep.request "shift_1" ⟨[], ["shift_1"]⟩
  have h4 : SrvStep ⟨["shift_1"], ["shift_1"]⟩ ⟨[], ["shift_1", "shift_1"]⟩ :=
    SrvStep.begin_task "shift_1" [] ⟨["shift_1"], ["shift_1"]⟩ rfl
  exact Relation.ReflTransGen.head h1 (Relation.ReflTransGen.head h2
    (Relation.ReflTransGen.head h3 (Relation.ReflTransGen.single h4)))

/-- C1 (amended): `startAnalysis(shiftId)` always schedules the analysis and
returns status `processing`, whatever the server state — there is no
per-shift guard and no `rejected` answer in the code. -/
theorem start_analysis_always_processing (shift_id : String) (st : ServerState) :
    (analyze_shift shift_id st).1 = ⟨"processing", shift_id⟩
    ∧ (analyze_shift shift_id st).1.status ≠ "rejected"
    ∧ (analyze_shift shift_id st).2 = ⟨st.queued ++ [shift_id], st.running⟩ :=
  ⟨rfl, show ("processing" : String) ≠ "rejected" by decide, rfl⟩

/-- C2: whenever a stage of `process_shift` fails, the run ends `failed` and
the report store is untouched; the store changes only by a complete run
writing, under the run's shift id, a report carrying all three agent
results. -/
theorem pipeline_failure_persists_nothing {F S U : Type}
    (env : PipelineEnv F S U) (db : Store F S U) (shift_id : String) :
    (∀ e, (process_shift env db shift_id).1 = RunOutcome.failed e →
        (process_shift env db shift_id).2.1 = db)
    ∧ ((process_shift env db shift_id).2.1 ≠ db →
        (process_shift env db shift_id).1 = RunOutcome.complete
        ∧ ∃ t md f s u,
            env.fatigue t md = .ok f ∧ env.safety t md = .ok s
            ∧ env.summarizer t md f s = .ok u
            ∧ (process_shift env db shift_id).2.1
                = Function.update db shift_id (some ⟨shift_id, f, s, u⟩)) := by
  unfold process_shift
  rcases hd : env.download_from_s3 shift_id with e | audio
  · exact ⟨fun _ _ => rfl, fun h => absurd rfl h⟩
  dsimp only
  rcases hm : env.get_shift_metadata shift_id with e | md
  · exact ⟨fun _ _ => rfl, fun h => absurd rfl h⟩
  dsimp only
  rcases ht : env.transcribe audio with e | t
  · exact ⟨fun _ _ => rfl, fun h => absurd rfl h⟩
  dsimp only
  rcases hf : env.fatigue t md with e | f
  · exact ⟨fun _ _ => rfl, fun h => absurd rfl h⟩
  dsimp only
  rcases hs : env.safety t md with e | s
  · exact ⟨fun _ _ => rfl, fun h => absurd rfl h⟩
  dsimp only
  rcases hu : env.summarizer t md f s with e | u
  · exact ⟨fun _ _ => rfl, fun h => absurd rfl h⟩
  constructor
  · intro e he
    cases he
  · intro _
    constructor
    · rfl
    · exact ⟨t, md, f, s, u, hf, hs, hu, rfl⟩

/-- C3: in every `process_shift` run, a Summarizer invocation event carries
exactly the Fatigue and Safety results validated earlier in the trace, and
both completion events precede it; in the §4.2 `asyncio.gather` sketch the
unbound `fatigue_result`/`safety_result` names make the gather raise
`NameError` first, so no Summarizer invocation ever occurs there. -/
theorem summarizer_fan_in :
    (∀ {F S U : Type} (env : PipelineEnv F S U) (db : Store F S U)
        (shift_id : String) (i : ℕ) (fv : F) (sv : S),
        (process_shift env db shift_id).2.2.get? i
            = some (Ev.invokeSummarizer fv sv) →
        ∃ j k, j < i ∧ k < i
          ∧ (process_shift env db shift_id).2.2.get? j = some (Ev.fatigueOk fv)
          ∧ (process_shift env db shift_id).2.2.get? k = some (Ev.safetyOk sv)
          ∧ ∃ t md, env.fatigue t md = Except.ok fv
              ∧ env.safety t md = Except.ok sv)
    ∧ (∀ {F S U : Type} (env : PipelineEnv F S U) (shift_id : String)
        (fv : F) (sv : S),
        Ev.invokeSummarizer fv sv ∉ (analyze_shift_gather env shift_id).2) := by
  constructor
  · intro F S U env db shift_id i fv sv
    unfold process_shift
    rcases hd : env.download_from_s3 shift_id with e | audio
    · intro h; simp at h
    dsimp only
    rcases hm : env.get_shift_metadata shift_id with e | md
    · intro h; simp at h
    dsimp only
    rcases ht : env.transcribe audio with e | t
    · intro h; simp at h
    dsimp only
    rcases hf : env.fatigue t md with e | f
    · intro h
      rcases i with _ | i <;> simp at h
    dsimp only
    rcases hs : env.safety t md with e | s
    · intro h
      rcases i with _ | _ | _ | i <;> simp at h
    dsimp only
    rcases hu : env.summarizer t md f s with e | u
    · intro h
      rcases i with _ | _ | _ | _ | _ | i <;> simp at h
      obtain ⟨rfl, rfl⟩ := h
      exact ⟨1, 3, by omega, by omega, rfl, rfl, t, md, hf, hs⟩
    · intro h
      rcases i with _ | _ | _ | _ | _ | _ | i <;> simp at h
      obtain ⟨rfl, rfl⟩ := h
      exact ⟨1, 3, by omega, by omega, rfl, rfl, t, md, hf, hs⟩
  · intro F S U env shift_id fv sv
    unfold analyze_shift_gather
    rcases hd : env.download_from_s3 shift_id with e | audio
    · simp
    dsimp only
    rcases hm : env.get_shift_metadata shift_id with e | md
    · simp
    dsimp only
    rcases ht : env.transcribe audio with e | t
    · simp
    · simp

/-- C6 counterexample: a backend whose first reply fails extraction while a
second call would have succeeded — the invocation makes exactly one backend
call and surfaces the terminal extraction failure immediately, with no
retry. -/
theorem agent_single_failure_terminal :
    (FatigueAgent.analyze exBackend exExtract exTranscript exMetadata).1
        = .error (AgentErr.extractionFailure "garbage")
    ∧ (FatigueAgent.analyze exBackend exExtract exTranscript exMetadata).2 = 1
    ∧ exBackend 1 = .ok "ok"
    ∧ exExtract "ok" = some () :=
  ⟨rfl, rfl, rfl, rfl⟩

/-- C6 (amended): an agent invocation calls the backend at most once —
exactly once when prompt construction succeeds — and a single backend
timeout or extraction failure on that call is immediately terminal; the
code contains no retry. -/
theorem agent_no_retry {α : Type} (backend : Nat → Except Unit String)
    (extract : String → Option α) (t : List TEntry) (md : ShiftMetadata) :
    (FatigueAgent.analyze backend extract t md).2 ≤ 1
    ∧ (10 ≤ t.length → ∀ e, backend 0 = .error e →
        (FatigueAgent.analyze backend extract t md).1
            = .error AgentErr.backendTimeout
        ∧ (FatigueAgent.analyze backend extract t md).2 = 1)
    ∧ (10 ≤ t.length → ∀ raw, backend 0 = .ok raw → extract raw = none →
        (FatigueAgent.analyze backend extract t md).1
            = .error (AgentErr.extractionFailure raw)
        ∧ (FatigueAgent.analyze backend extract t md).2 = 1) := by
  unfold FatigueAgent.analyze
  rcases hfs : format_samples t with fault | samples
  · refine ⟨by norm_num, ?_, ?_⟩
    · intro hlen e _
      obtain ⟨l, hl⟩ := (format_samples_ok_iff t).mpr hlen
      rw [hfs] at hl; cases hl
    · intro hlen raw _ _
      obtain ⟨l, hl⟩ := (format_samples_ok_iff t).mpr hlen
      rw [hfs] at hl; cases hl
  dsimp only
  rcases hb : backend 0 with e | raw
  · refine ⟨le_refl 1, fun _ _ _ => ⟨rfl, rfl⟩, fun _ raw' hb' _ => ?_⟩
    cases hb'
  dsimp only
  rcases he : extract raw with _ | payload
  · refine ⟨le_refl 1, fun _ e' hb' => ?_, fun _ raw' hb' he' => ?_⟩
    · cases hb'
    · injection hb' with hr
      subst hr
      exact ⟨rfl, rfl⟩
  · refine ⟨le_refl 1, fun _ e' hb' => ?_, fun _ raw' hb' he' => ?_⟩
    · cases hb'
    · injection hb' with hr
      subst hr
      rw [he] at he'; cases he'

/-- C7 counterexample: on a three-entry transcript the stride
`len(transcript) // 10` is zero and `transcript[::0]` raises `ValueError` —
the sample construction faults instead of being total. -/
theorem format_samples_short_fault :
    format_samples shortTranscript = .error PyFault.sliceStepZero := rfl

/-- C7 (amended): the sample construction uses stride `⌊len/10⌋` and sample
size 10, and is total exactly on transcripts with at least 10 entries; on
fewer than 10 entries the zero stride makes the Python slice fault. -/
theorem format_samples_totality_boundary :
    (∀ t : List TEntry, t.length < 10 →
        format_samples t = .error PyFault.sliceStepZero)
    ∧ (∀ t : List TEntry, 10 ≤ t.length →
        format_samples t
          = .ok (((everyNth (t.length / 10) t).take 10).map formatSample))
    ∧ (∀ (t : List TEntry) (l : List String),
        format_samples t = .ok l → l.length ≤ 10) := by
  refine ⟨?_, ?_, ?_⟩
  · intro t h
    unfold format_samples
    rw [if_pos ((Nat.div_eq_zero_iff (by norm_num)).mpr h)]
  · intro t h
    unfold format_samples
    rw [if_neg fun hz =>
      absurd ((Nat.div_eq_zero_iff (by norm_num)).mp hz) (not_lt.mpr h)]
  · intro t l h
    unfold format_samples at h
    by_cases hz : t.length / 10 = 0
    · rw [if_pos hz] at h; cases h
    · rw [if_neg hz] at h
      injection h with h'
      subst h'
      simp only [List.length_map, List.length_take]
      omega

/-- C8 counterexample: a successful invocation's attached metrics block has
exactly the keys `avg_response_time`, `max_response_time`,
`hesitation_count` and `hours_on_duty` — `min_response_time` is not among
them, contrary to the claimed four-field set with a minimum. -/
theorem fatigue_metrics_keys_no_min :
    metricKeys (FatigueAgent.analyze okBackend okExtract
        exTranscript exMetadata).1
      = ["avg_response_time", "max_response_time", "hesitation_count",
         "hours_on_duty"]
    ∧ "min_response_time"
        ∉ metricKeys (FatigueAgent.analyze okBackend okExtract
            exTranscript exMetadata).1 := by
  have h1 : metricKeys (FatigueAgent.analyze okBackend okExtract
      exTranscript exMetadata).1
      = ["avg_response_time", "max_response_time", "hesitation_count",
         "hours_on_duty"] := rfl
  refine ⟨h1, ?_⟩
  rw [h1]
  decide

/-- C8 (amended): every successfully validated Fatigue result carries the
metrics block attached after and outside the model call — the keys
`avg_response_time`, `max_response_time`, `hesitation_count`,
`hours_on_duty`, with values computed by the Metrics Calculator from the
transcript and metadata alone, independent of what the model emitted. -/
theorem fatigue_metrics_attached {α : Type} (backend : Nat → Except Unit String)
    (extract : String → Option α) (t : List TEntry) (md : ShiftMetadata)
    (r : FatigueResult α)
    (h : (FatigueAgent.analyze backend extract t md).1 = .ok r) :
    r.metrics
      = [ ("avg_response_time", (calculate_response_times t).1)
        , ("max_response_time", (calculate_response_times t).2.1)
        , ("hesitation_count", (count_hesitations t : ℚ))
        , ("hours_on_duty", get_hours_on_duty md) ] := by
  unfold FatigueAgent.analyze at h
  rcases hfs : format_samples t with fault | samples
  · rw [hfs] at h; cases h
  rw [hfs] at h
  dsimp only at h
  rcases hb : backend 0 with e | raw
  · rw [hb] at h; cases h
  rw [hb] at h
  dsimp only at h
  rcases he : extract raw with _ | payload
  · rw [he] at h; cases h
  rw [he] at h
  dsimp only at h
  injection h with h'
  rw [← h']
  rfl

/-- Witness for C8's theorem at a concrete successful invocation. -/
theorem fatigue_metrics_attached_witness :
    (FatigueResult.mk () (attachedMetrics exTranscript exMetadata)).metrics
      = [ ("avg_response_time", (calculate_response_times exTranscript).1)
        , ("max_response_time", (calculate_response_times exTranscript).2.1)
        , ("hesitation_count", (count_hesitations exTranscript : ℚ))
        , ("hours_on_duty", get_hours_on_duty exMetadata) ] :=
  fatigue_metrics_attached okBackend okExtract exTranscript exMetadata _ rfl

/-- C9: a metadata submission passes the upload form's validation only with
both times filled and `endTime` strictly after `startTime` (so
`hoursOnDuty = endTime - startTime > 0`); with `endTime ≤ startTime` the
validation records the `End time must be after start time` error and the
form is rejected. -/
theorem metadata_times_validated :
    (∀ (af : Option AudioFile) (f : UploadFormData), validateForm af f = [] →
        ∃ s e, f.startTime = some s ∧ f.endTime = some e ∧ s < e ∧ 0 < e - s)
    ∧ (∀ (af : Option AudioFile) (f : UploadFormData) (s e : ℚ),
        f.startTime = some s → f.endTime = some e → e ≤ s →
        ("endTime", "End time must be after start time") ∈ validateForm af f
        ∧ validateForm af f ≠ []) := by
  constructor
  · intro af f h
    simp only [validateForm, List.append_eq_nil] at h
    obtain ⟨⟨⟨⟨⟨⟨⟨⟨⟨-, -⟩, -⟩, -⟩, h5⟩, h6⟩, h7⟩, -⟩, -⟩, -⟩ := h
    have hst : f.startTime ≠ none := by
      intro hn; rw [if_pos hn] at h5; cases h5
    have het : f.endTime ≠ none := by
      intro hn; rw [if_pos hn] at h6; cases h6
    obtain ⟨s, hs⟩ := Option.ne_none_iff_exists'.mp hst
    obtain ⟨e, he⟩ := Option.ne_none_iff_exists'.mp het
    rw [hs, he] at h7
    dsimp only at h7
    have hlt : s < e := by
      by_contra hle
      rw [if_pos (not_lt.mp hle)] at h7
      cases h7
    exact ⟨s, e, hs, he, hlt, by linarith⟩
  · intro af f s e hs he hle
    have hmem : ("endTime", "End time must be after start time")
        ∈ validateForm af f := by
      unfold validateForm
      rw [hs, he]
      dsimp only
      rw [if_pos hle]
      simp
    exact ⟨hmem, List.ne_nil_of_mem hmem⟩

/-- C10: the upload interface keeps a selected audio file exactly when its
MIME type is among `audio/mpeg`, `audio/wav`, `audio/mp4`, `audio/ogg`,
`audio/flac` and its measured duration is at most 1800 seconds; a file
failing either check is rejected with an `audioFile` error and the selection
is cleared, and with no selected file the form never validates, so no
analysis is queued. -/
theorem audio_upload_validation :
    (∀ (file : AudioFile) (st : UploadState),
        (handleAudioChange file st).audioFile = some file ↔
          (file.type ∈ validTypes ∧ file.duration ≤ maxDurationSeconds))
    ∧ (∀ (file : AudioFile) (st : UploadState),
        (file.type ∉ validTypes ∨ maxDurationSeconds < file.duration) →
          (handleAudioChange file st).audioFile = none
          ∧ ∃ msg, ("audioFile", msg) ∈ (handleAudioChange file st).errors)
    ∧ (∀ f : UploadFormData, validateForm none f ≠ []) := by
  refine ⟨?_, ?_, ?_⟩
  · intro file st
    by_cases hty : file.type ∈ validTypes
    · by_cases hdur : maxDurationSeconds < file.duration
      · simp [handleAudioChange, hty, hdur, not_le.mpr hdur]
      · simp [handleAudioChange, hty, hdur, not_lt.mp hdur]
    · simp [handleAudioChange, hty]
  · intro file st h
    by_cases hty : file.type ∈ validTypes
    · rcases h with hty' | hdur
      · exact absurd hty hty'
      · unfold handleAudioChange
        rw [if_neg (not_not_intro hty), if_pos hdur]
        exact ⟨rfl, "Audio file is too long. Maximum duration is 30 minutes.",
          by simp⟩
    · unfold handleAudioChange
      rw [if_pos hty]
      exact ⟨rfl, "Invalid audio format. Please upload MP3, WAV, M4A, OGG, or FLAC.",
        by simp⟩
  · intro f h
    unfold validateForm at h
    simp at h

end ATC
